import Mathlib

/-!
Shallow embedding of `src/eligibility_pipeline.py`.

Modelling conventions:
* a pandas cell is `Cell`: `Cell.str s` is the string `s` (strings are lists
  of characters), and the two missing markers the program distinguishes
  observably are kept apart — `Cell.nan` is the float `NaN` that
  `pd.read_csv(..., dtype=str)` yields for an empty field, rendered `"nan"`
  by `str()`, while `Cell.na` is the `pd.NA` marker inserted for a wholly
  absent column (src line 40) and by `Series.replace(_, pd.NA)` (src lines
  55-57), rendered `"<NA>"` by `str()`. The `None` returned by `format_phone`
  and the `NaN` that `strftime` yields on `NaT` are observed by the program
  only through `pd.isna`, never through `str()`, and are represented by
  `Cell.nan`;
* a dataframe row is an association list from column name to cell, and a
  dataframe is a list of rows (all file/CSV I/O and logging are external
  collaborators and are out of scope, per the spec);
* Python `str.title()` is `pyTitle`, Python `str.strip()` is `pyStrip`,
  `re.sub(r"\D", "", s)` is `List.filter Char.isDigit`;
* `pd.to_datetime(_, errors="coerce").dt.strftime("%Y-%m-%d")` is modelled by
  `parse_date`, whose parser accepts ISO `YYYY-MM-DD` text (a faithful subset
  of the heterogeneous formats pandas accepts) and validates the calendar date,
  returning a missing value (NaT) on anything unparseable.
-/

namespace EligibilityPipeline

/-! ## Character-level facts about `Char.toUpper` / `Char.toLower` -/

theorem char_toNat_ofNat {n : Nat} (h : n < 0xd800) : (Char.ofNat n).toNat = n := by
  rw [Char.ofNat, dif_pos (Or.inl h)]
  rfl

theorem char_eq_of_toNat {c d : Char} (h : c.toNat = d.toNat) : c = d := by
  have h2 := congrArg Char.ofNat h
  rwa [Char.ofNat_toNat, Char.ofNat_toNat] at h2

theorem isLower_eq (c : Char) : c.isLower = (97 ≤ c.toNat && c.toNat ≤ 122) := by
  simp [Char.isLower, UInt32.le_def, BitVec.le_def, Char.toNat, UInt32.toNat]

theorem isUpper_eq (c : Char) : c.isUpper = (65 ≤ c.toNat && c.toNat ≤ 90) := by
  simp [Char.isUpper, UInt32.le_def, BitVec.le_def, Char.toNat, UInt32.toNat]

theorem isDigit_eq (c : Char) : c.isDigit = (48 ≤ c.toNat && c.toNat ≤ 57) := by
  simp [Char.isDigit, UInt32.le_def, BitVec.le_def, Char.toNat, UInt32.toNat]

theorem isAlpha_eq (c : Char) :
    c.isAlpha = ((65 ≤ c.toNat && c.toNat ≤ 90) || (97 ≤ c.toNat && c.toNat ≤ 122)) := by
  rw [Char.isAlpha, isUpper_eq, isLower_eq]

theorem toUpper_toNat (c : Char) :
    c.toUpper.toNat = if 97 ≤ c.toNat ∧ c.toNat ≤ 122 then c.toNat - 32 else c.toNat := by
  rw [Char.toUpper]
  split
  · next h => rw [char_toNat_ofNat (by omega)]
  · rfl

theorem toLower_toNat (c : Char) :
    c.toLower.toNat = if 65 ≤ c.toNat ∧ c.toNat ≤ 90 then c.toNat + 32 else c.toNat := by
  rw [Char.toLower]
  split
  · next h => rw [char_toNat_ofNat (by omega)]
  · rfl

theorem toUpper_isAlpha (c : Char) : c.toUpper.isAlpha = c.isAlpha := by
  rw [isAlpha_eq, isAlpha_eq, toUpper_toNat]
  by_cases hc : 97 ≤ c.toNat ∧ c.toNat ≤ 122
  · rw [if_pos hc]
    apply Bool.eq_iff_iff.mpr
    simp only [Bool.or_eq_true, Bool.and_eq_true, decide_eq_true_eq]
    omega
  · rw [if_neg hc]

theorem toLower_isAlpha (c : Char) : c.toLower.isAlpha = c.isAlpha := by
  rw [isAlpha_eq, isAlpha_eq, toLower_toNat]
  by_cases hc : 65 ≤ c.toNat ∧ c.toNat ≤ 90
  · rw [if_pos hc]
    apply Bool.eq_iff_iff.mpr
    simp only [Bool.or_eq_true, Bool.and_eq_true, decide_eq_true_eq]
    omega
  · rw [if_neg hc]

theorem toUpper_toUpper (c : Char) : c.toUpper.toUpper = c.toUpper := by
  apply char_eq_of_toNat
  rw [toUpper_toNat c.toUpper, toUpper_toNat]
  by_cases hc : 97 ≤ c.toNat ∧ c.toNat ≤ 122
  · rw [if_pos hc, if_neg (by omega)]
  · rw [if_neg hc, if_neg hc]

theorem toLower_toLower (c : Char) : c.toLower.toLower = c.toLower := by
  apply char_eq_of_toNat
  rw [toLower_toNat c.toLower, toLower_toNat]
  by_cases hc : 65 ≤ c.toNat ∧ c.toNat ≤ 90
  · rw [if_pos hc, if_neg (by omega)]
  · rw [if_neg hc, if_neg hc]

theorem toUpper_not_isLower (c : Char) : c.toUpper.isLower = false := by
  rw [isLower_eq, toUpper_toNat]
  by_cases hc : 97 ≤ c.toNat ∧ c.toNat ≤ 122
  · rw [if_pos hc]
    simp only [Bool.and_eq_false_iff, decide_eq_false_iff_not]
    omega
  · rw [if_neg hc]
    simp only [Bool.and_eq_false_iff, decide_eq_false_iff_not]
    omega

/-! ## Strings and cells -/

/-- A text value; Python/pandas strings are modelled as lists of characters. -/
abbrev Str := List Char

/-- A dataframe cell. `nan` is the float `NaN` missing value, `na` is the
`pd.NA` marker — the program distinguishes the two observably, because
`astype(str)` renders them `"nan"` and `"<NA>"` respectively — and `str s`
is the string `s`. -/
inductive Cell where
  | nan : Cell
  | na : Cell
  | str (s : Str) : Cell
deriving DecidableEq, Repr

/-- Characters removed by Python `str.strip()` (ASCII whitespace: space, tab,
newline, carriage return, vertical tab, form feed). -/
def isSpaceChar (c : Char) : Bool :=
  c == ' ' || c == '\t' || c == '\n' || c == '\r' || c == Char.ofNat 11 || c == Char.ofNat 12

/-- Python `str.strip()`: drop leading and trailing whitespace. -/
def pyStrip (s : Str) : Str :=
  ((s.dropWhile isSpaceChar).reverse.dropWhile isSpaceChar).reverse

/-- Value of `str(x)` / pandas `.astype(str)` on a cell: float `NaN` renders
as the literal `"nan"`, the `pd.NA` marker renders as `"<NA>"`. -/
def astype_str : Cell → Str
  | Cell.nan => ['n', 'a', 'n']
  | Cell.na => ['<', 'N', 'A', '>']
  | Cell.str s => s

/-! ## FieldNormalizers -/

/-- Embedding of `format_phone` (src lines 16-25): `None` on a missing value
(`NaN` or `pd.NA` — both satisfy `pd.isna`), otherwise keep only the digits
(`re.sub(r"\D", "", phone)`) and, when exactly 10 remain, format them
`AAA-BBB-CCCC`; any other digit count gives `None`. The returned Python
`None` is missing in every observation the program later makes of it
(`pd.isna`), and is represented by `Cell.nan`. -/
def format_phone : Cell → Cell
  | Cell.str s =>
    let digits := s.filter Char.isDigit
    if digits.length = 10 then
      Cell.str (digits.take 3 ++ ('-' :: ((digits.drop 3).take 3 ++ ('-' :: digits.drop 6))))
    else Cell.nan
  | _ => Cell.nan

/-- Python `str.title()` restricted to ASCII: a letter that follows a
non-letter (or starts the string) is uppercased, a letter that follows a
letter is lowercased, non-letters pass through. The boolean state records
whether the previous character was a letter. -/
def pyTitleGo : Bool → Str → Str
  | _, [] => []
  | prevAlpha, c :: cs =>
    if c.isAlpha then
      (if prevAlpha then c.toLower else c.toUpper) :: pyTitleGo true cs
    else
      c :: pyTitleGo false cs

/-- Python `str.title()` on a whole string. -/
def pyTitle (s : Str) : Str := pyTitleGo false s

/-- Modelled from the spec: title case as the spec words it — "first letter of
each whitespace-separated token capitalized, rest lowercased". The boolean
state records whether we are at the start of a token. -/
def specTitleGo : Bool → Str → Str
  | _, [] => []
  | atStart, c :: cs =>
    if isSpaceChar c then
      c :: specTitleGo true cs
    else
      (if atStart then c.toUpper else c.toLower) :: specTitleGo false cs

/-- Modelled from the spec: whole-string whitespace-token title case. -/
def specTitle (s : Str) : Str := specTitleGo true s

/-- Embedding of the first/last-name normalization (src lines 55-56):
`col.astype(str).str.title().replace("Nan", pd.NA)`. -/
def normalize_name (c : Cell) : Cell :=
  let t := pyTitle (astype_str c)
  if t = ['N', 'a', 'n'] then Cell.na else Cell.str t

/-- Embedding of the email normalization (src line 57):
`col.astype(str).str.lower().replace("nan", pd.NA)`. -/
def normalize_email (c : Cell) : Cell :=
  let t := (astype_str c).map Char.toLower
  if t = ['n', 'a', 'n'] then Cell.na else Cell.str t

/-! ## Lemmas about the normalizers -/

theorem cond_false {α : Sort u} (a b : α) : (if (false : Bool) = true then a else b) = b := rfl

theorem cond_true {α : Sort u} (a b : α) : (if (true : Bool) = true then a else b) = a := rfl

theorem pyTitleGo_idem (s : Str) : ∀ b : Bool, pyTitleGo b (pyTitleGo b s) = pyTitleGo b s := by
  induction s with
  | nil => intro b; rfl
  | cons c cs ih =>
    intro b
    by_cases hc : c.isAlpha = true
    · cases b with
      | false =>
        have hu : c.toUpper.isAlpha = true := by rw [toUpper_isAlpha]; exact hc
        simp only [pyTitleGo, if_pos hc, if_pos hu, cond_false, toUpper_toUpper, ih true]
      | true =>
        have hl : c.toLower.isAlpha = true := by rw [toLower_isAlpha]; exact hc
        simp only [pyTitleGo, if_pos hc, if_pos hl, cond_true, if_true, toLower_toLower, ih true]
    · simp only [pyTitleGo, if_neg hc, ih false]

theorem pyTitle_idem (s : Str) : pyTitle (pyTitle s) = pyTitle s :=
  pyTitleGo_idem s false

/-- The head of a title-cased string is never a lowercase letter. -/
theorem pyTitle_head_not_lower (s : Str) (x : Char) (xs : Str)
    (h : pyTitle s = x :: xs) : x.isLower = false ∨ x.isAlpha = false := by
  cases s with
  | nil => exact absurd h (by simp [pyTitle, pyTitleGo])
  | cons c cs =>
    by_cases hc : c.isAlpha = true
    · rw [pyTitle, pyTitleGo, if_pos hc, cond_false] at h
      injection h with h1 h2
      exact Or.inl (h1 ▸ toUpper_not_isLower c)
    · rw [pyTitle, pyTitleGo, if_neg hc] at h
      injection h with h1 h2
      rw [Bool.not_eq_true] at hc
      exact Or.inr (h1 ▸ hc)

/-- The name normalizer can never output the literal placeholder string
`"nan"`: its first letter would have been uppercased. -/
theorem normalize_name_ne_nan (c : Cell) : normalize_name c ≠ Cell.str ['n', 'a', 'n'] := by
  unfold normalize_name
  intro h
  by_cases ht : pyTitle (astype_str c) = ['N', 'a', 'n']
  · rw [if_pos ht] at h
    exact Cell.noConfusion h
  · rw [if_neg ht] at h
    have he : pyTitle (astype_str c) = ['n', 'a', 'n'] := by
      rw [Cell.str.injEq] at h
      exact h
    rcases pyTitle_head_not_lower _ _ _ he with hl | ha
    · exact absurd hl (by decide)
    · exact absurd ha (by decide)

/-- Name normalization is idempotent only away from the `pd.NA` marker it
itself inserts: a `Cell.na` output would re-render as the literal `"<Na>"`
on a second pass (see the C8 counterexample). -/
theorem normalize_name_idem (c : Cell) (h : normalize_name c ≠ Cell.na) :
    normalize_name (normalize_name c) = normalize_name c := by
  cases c with
  | nan => exact absurd (by decide) h
  | na => decide
  | str s =>
    by_cases ht : pyTitle (astype_str (Cell.str s)) = ['N', 'a', 'n']
    · exact absurd (by unfold normalize_name; rw [if_pos ht]) h
    · have h1 : normalize_name (Cell.str s) = Cell.str (pyTitle (astype_str (Cell.str s))) := by
        unfold normalize_name
        rw [if_neg ht]
      rw [h1]
      unfold normalize_name
      have hs : astype_str (Cell.str (pyTitle (astype_str (Cell.str s))))
          = pyTitle (astype_str (Cell.str s)) := rfl
      rw [hs, pyTitle_idem, if_neg ht]

theorem map_toLower_idem (s : Str) : (s.map Char.toLower).map Char.toLower = s.map Char.toLower := by
  rw [List.map_map]
  apply List.map_congr_left
  intro c _
  exact toLower_toLower c

/-- Email normalization is likewise idempotent only away from the `pd.NA`
marker: a `Cell.na` output would re-render as the literal `"<na>"`. -/
theorem normalize_email_idem (c : Cell) (h : normalize_email c ≠ Cell.na) :
    normalize_email (normalize_email c) = normalize_email c := by
  cases c with
  | nan => exact absurd (by decide) h
  | na => decide
  | str s =>
    by_cases ht : (astype_str (Cell.str s)).map Char.toLower = ['n', 'a', 'n']
    · exact absurd (by unfold normalize_email; rw [if_pos ht]) h
    · have h1 : normalize_email (Cell.str s)
          = Cell.str ((astype_str (Cell.str s)).map Char.toLower) := by
        unfold normalize_email
        rw [if_neg ht]
      rw [h1]
      unfold normalize_email
      have hs : astype_str (Cell.str ((astype_str (Cell.str s)).map Char.toLower))
          = (astype_str (Cell.str s)).map Char.toLower := rfl
      rw [hs, map_toLower_idem, if_neg ht]

theorem char_beq_false {c d : Char} (h : c.toNat ≠ d.toNat) : (c == d) = false := by
  rw [beq_eq_false_iff_ne]
  intro he
  exact h (he ▸ rfl)

theorem isSpaceChar_eq_false_of_alpha {c : Char} (h : c.isAlpha = true) : isSpaceChar c = false := by
  rw [isAlpha_eq] at h
  simp only [Bool.or_eq_true, Bool.and_eq_true, decide_eq_true_eq] at h
  have h32 : (' ' : Char).toNat = 32 := rfl
  have h9 : ('\t' : Char).toNat = 9 := rfl
  have h10 : ('\n' : Char).toNat = 10 := rfl
  have h13 : ('\r' : Char).toNat = 13 := rfl
  have h11 : (Char.ofNat 11).toNat = 11 := rfl
  have h12 : (Char.ofNat 12).toNat = 12 := rfl
  unfold isSpaceChar
  rw [char_beq_false (by omega), char_beq_false (by omega), char_beq_false (by omega),
    char_beq_false (by omega), char_beq_false (by omega), char_beq_false (by omega)]
  rfl

/-- On strings made of letters and plain spaces, Python `str.title()` agrees
with the spec's "first letter of each whitespace-separated token capitalized,
rest lowercased". -/
theorem titleGo_agree (s : Str) : ∀ b : Bool,
    (∀ c ∈ s, c.isAlpha = true ∨ c = ' ') →
    pyTitleGo b s = specTitleGo (!b) s := by
  induction s with
  | nil => intro b _; rfl
  | cons c cs ih =>
    intro b hmem
    have htail : ∀ x ∈ cs, x.isAlpha = true ∨ x = ' ' :=
      fun x hx => hmem x (List.mem_cons_of_mem c hx)
    rcases hmem c (List.mem_cons_self c cs) with hc | hc
    · have hs : isSpaceChar c = false := isSpaceChar_eq_false_of_alpha hc
      cases b with
      | false =>
        simp only [pyTitleGo, specTitleGo, if_pos hc, hs, Bool.false_eq_true, if_false, if_true,
          Bool.not_false, cond_false, cond_true, ih true htail, Bool.not_true]
      | true =>
        simp only [pyTitleGo, specTitleGo, if_pos hc, hs, Bool.false_eq_true, if_false, if_true,
          Bool.not_true, cond_false, cond_true, ih true htail]
    · subst hc
      cases b with
      | false =>
        simp only [pyTitleGo, specTitleGo, Bool.not_false, if_pos (show isSpaceChar ' ' = true from rfl),
          if_neg (show ¬((' ' : Char).isAlpha = true) by decide), ih false htail, Bool.not_true,
          Bool.not_false]
      | true =>
        simp only [pyTitleGo, specTitleGo, Bool.not_true, if_pos (show isSpaceChar ' ' = true from rfl),
          if_neg (show ¬((' ' : Char).isAlpha = true) by decide), ih false htail, Bool.not_false]

theorem pyTitle_agrees_specTitle (s : Str) (h : ∀ c ∈ s, c.isAlpha = true ∨ c = ' ') :
    pyTitle s = specTitle s := by
  rw [pyTitle, specTitle, titleGo_agree s false h]
  rfl

/-! ## Lemmas about `format_phone` -/

theorem filter_isDigit_format (d : Str) (hd : ∀ c ∈ d, c.isDigit = true) :
    (d.take 3 ++ ('-' :: ((d.drop 3).take 3 ++ ('-' :: d.drop 6)))).filter Char.isDigit = d := by
  have hdash : ¬(Char.isDigit '-' = true) := by decide
  rw [List.filter_append, List.filter_cons_of_neg hdash, List.filter_append,
    List.filter_cons_of_neg hdash]
  rw [List.filter_eq_self.mpr (fun a ha => hd a (List.mem_of_mem_take ha)),
    List.filter_eq_self.mpr (fun a ha => hd a (List.mem_of_mem_drop (List.mem_of_mem_take ha))),
    List.filter_eq_self.mpr (fun a ha => hd a (List.mem_of_mem_drop ha))]
  have hd6 : d.drop 6 = (d.drop 3).drop 3 := by rw [List.drop_drop]
  rw [hd6, List.take_append_drop, List.take_append_drop]

theorem format_phone_of_digits (s : Str) (h : (s.filter Char.isDigit).length = 10) :
    format_phone (Cell.str s) =
      Cell.str ((s.filter Char.isDigit).take 3 ++
        ('-' :: (((s.filter Char.isDigit).drop 3).take 3 ++
          ('-' :: (s.filter Char.isDigit).drop 6)))) := by
  simp only [format_phone]
  rw [if_pos h]

theorem format_phone_of_not_ten (s : Str) (h : (s.filter Char.isDigit).length ≠ 10) :
    format_phone (Cell.str s) = Cell.nan := by
  simp only [format_phone]
  rw [if_neg h]

theorem format_phone_idem (c : Cell) : format_phone (format_phone c) = format_phone c := by
  cases c with
  | nan => rfl
  | na => rfl
  | str s =>
    by_cases h : (s.filter Char.isDigit).length = 10
    · rw [format_phone_of_digits s h]
      have hmem : ∀ a ∈ s.filter Char.isDigit, a.isDigit = true :=
        fun a ha => List.of_mem_filter ha
      have hf := filter_isDigit_format (s.filter Char.isDigit) hmem
      rw [format_phone_of_digits _ (by rw [hf]; exact h), hf]
    · rw [format_phone_of_not_ten s h]
      rfl

/-! ## Date parsing and formatting -/

/-- A parsed calendar date. -/
structure PDate where
  y : Nat
  m : Nat
  d : Nat
deriving DecidableEq, Repr

/-- Gregorian leap-year rule. -/
def isLeap (y : Nat) : Bool := (y % 4 == 0 && y % 100 != 0) || y % 400 == 0

def daysInMonth (y m : Nat) : Nat :=
  if m == 2 then (if isLeap y then 29 else 28)
  else if m == 4 || m == 6 || m == 9 || m == 11 then 30
  else 31

/-- Calendar validity of a parsed date (month and day in range for the year). -/
def validDate (dt : PDate) : Bool :=
  1 ≤ dt.y && dt.y ≤ 9999 && 1 ≤ dt.m && dt.m ≤ 12 && 1 ≤ dt.d && dt.d ≤ daysInMonth dt.y dt.m

def digitChar (n : Nat) : Char := Char.ofNat (48 + n)

def digitVal (c : Char) : Nat := c.toNat - 48

def digitsVal (l : Str) : Nat := l.foldl (fun a c => a * 10 + digitVal c) 0

def pad4 (n : Nat) : Str :=
  [digitChar (n / 1000 % 10), digitChar (n / 100 % 10), digitChar (n / 10 % 10), digitChar (n % 10)]

def pad2 (n : Nat) : Str := [digitChar (n / 10 % 10), digitChar (n % 10)]

/-- Output shape of `strftime("%Y-%m-%d")`: zero-padded `YYYY-MM-DD`. -/
def formatISO (dt : PDate) : Str := pad4 dt.y ++ (('-' :: pad2 dt.m) ++ ('-' :: pad2 dt.d))

/-- Parser underlying the model of `pd.to_datetime(_, errors="coerce")`:
accepts ISO `YYYY-MM-DD` text denoting a valid calendar date (a faithful
subset of the heterogeneous formats pandas accepts), anything else is `none`
(NaT). -/
def parseDateStr : Str → Option PDate
  | [y1, y2, y3, y4, s1, m1, m2, s2, d1, d2] =>
    if s1 == '-' && s2 == '-' && ([y1, y2, y3, y4, m1, m2, d1, d2].all Char.isDigit) then
      if validDate ⟨digitsVal [y1, y2, y3, y4], digitsVal [m1, m2], digitsVal [d1, d2]⟩ then
        some ⟨digitsVal [y1, y2, y3, y4], digitsVal [m1, m2], digitsVal [d1, d2]⟩
      else none
    else none
  | _ => none

/-- Embedding of the dob normalization (src line 60):
`pd.to_datetime(kept["dob"], errors="coerce").dt.strftime("%Y-%m-%d")`.
A missing value of either flavor becomes NaT, and `strftime` renders NaT as
float `NaN` (`Cell.nan`); an unparseable or calendar-invalid string coerces
to NaT and so to `Cell.nan`; a parsed date is formatted back `YYYY-MM-DD`. -/
def parse_date : Cell → Cell
  | Cell.str s =>
    match parseDateStr s with
    | none => Cell.nan
    | some dt => Cell.str (formatISO dt)
  | _ => Cell.nan

theorem digitChar_toNat {k : Nat} (h : k < 10) : (digitChar k).toNat = 48 + k :=
  char_toNat_ofNat (by omega)

theorem digitChar_isDigit {k : Nat} (h : k < 10) : (digitChar k).isDigit = true := by
  rw [isDigit_eq, digitChar_toNat h]
  simp only [Bool.and_eq_true, decide_eq_true_eq]
  omega

theorem digitVal_digitChar {k : Nat} (h : k < 10) : digitVal (digitChar k) = k := by
  rw [digitVal, digitChar_toNat h]
  omega

theorem parseDateStr_some {s : Str} {dt : PDate} (h : parseDateStr s = some dt) :
    validDate dt = true := by
  unfold parseDateStr at h
  split at h
  · split at h
    · split at h
      · next hv => exact Option.some.inj h ▸ hv
      · exact Option.noConfusion h
    · exact Option.noConfusion h
  · exact Option.noConfusion h

theorem formatISO_roundtrip (dt : PDate) (h : validDate dt = true) :
    parseDateStr (formatISO dt) = some dt := by
  have e1 : formatISO dt =
      [digitChar (dt.y / 1000 % 10), digitChar (dt.y / 100 % 10), digitChar (dt.y / 10 % 10),
        digitChar (dt.y % 10), '-', digitChar (dt.m / 10 % 10), digitChar (dt.m % 10), '-',
        digitChar (dt.d / 10 % 10), digitChar (dt.d % 10)] := rfl
  have hall : [digitChar (dt.y / 1000 % 10), digitChar (dt.y / 100 % 10),
      digitChar (dt.y / 10 % 10), digitChar (dt.y % 10), digitChar (dt.m / 10 % 10),
      digitChar (dt.m % 10), digitChar (dt.d / 10 % 10), digitChar (dt.d % 10)].all
        Char.isDigit = true := by
    simp only [List.all_cons, List.all_nil, Bool.and_eq_true]
    exact ⟨digitChar_isDigit (Nat.mod_lt _ (by omega)), digitChar_isDigit (Nat.mod_lt _ (by omega)),
      digitChar_isDigit (Nat.mod_lt _ (by omega)), digitChar_isDigit (Nat.mod_lt _ (by omega)),
      digitChar_isDigit (Nat.mod_lt _ (by omega)), digitChar_isDigit (Nat.mod_lt _ (by omega)),
      digitChar_isDigit (Nat.mod_lt _ (by omega)), digitChar_isDigit (Nat.mod_lt _ (by omega)),
      trivial⟩
  have h1 : digitsVal [digitChar (dt.y / 1000 % 10), digitChar (dt.y / 100 % 10),
      digitChar (dt.y / 10 % 10), digitChar (dt.y % 10)] = dt.y := by
    have hy : dt.y ≤ 9999 := by
      unfold validDate at h
      simp only [Bool.and_eq_true, decide_eq_true_eq] at h
      omega
    unfold digitsVal
    simp only [List.foldl]
    rw [digitVal_digitChar (Nat.mod_lt _ (by omega)),
      digitVal_digitChar (Nat.mod_lt _ (by omega)),
      digitVal_digitChar (Nat.mod_lt _ (by omega)),
      digitVal_digitChar (Nat.mod_lt _ (by omega))]
    omega
  have h2 : digitsVal [digitChar (dt.m / 10 % 10), digitChar (dt.m % 10)] = dt.m := by
    have hm : dt.m ≤ 12 := by
      unfold validDate at h
      simp only [Bool.and_eq_true, decide_eq_true_eq] at h
      omega
    unfold digitsVal
    simp only [List.foldl]
    rw [digitVal_digitChar (Nat.mod_lt _ (by omega)),
      digitVal_digitChar (Nat.mod_lt _ (by omega))]
    omega
  have h3 : digitsVal [digitChar (dt.d / 10 % 10), digitChar (dt.d % 10)] = dt.d := by
    have hdm : daysInMonth dt.y dt.m ≤ 31 := by
      unfold daysInMonth
      split
      · split <;> omega
      · split <;> omega
    have hd : dt.d ≤ 31 := by
      unfold validDate at h
      simp only [Bool.and_eq_true, decide_eq_true_eq] at h
      omega
    unfold digitsVal
    simp only [List.foldl]
    rw [digitVal_digitChar (Nat.mod_lt _ (by omega)),
      digitVal_digitChar (Nat.mod_lt _ (by omega))]
    omega
  rw [e1]
  simp only [parseDateStr]
  rw [show (('-' : Char) == '-') = true from rfl]
  simp only [Bool.true_and, Bool.and_true]
  rw [if_pos hall, h1, h2, h3]
  have hdt : (⟨dt.y, dt.m, dt.d⟩ : PDate) = dt := rfl
  rw [hdt, if_pos h]

theorem parse_date_idem (c : Cell) : parse_date (parse_date c) = parse_date c := by
  cases c with
  | nan => rfl
  | na => rfl
  | str s =>
    simp only [parse_date]
    cases hp : parseDateStr s with
    | none => rfl
    | some dt =>
      simp only [parse_date]
      rw [formatISO_roundtrip dt (parseDateStr_some hp)]

/-! ## Rows, dataframes and partner configuration -/

/-- A dataframe row: an association list from column name to cell. -/
abbrev Row := List (String × Cell)

/-- Reading column `k` of a row: a column that is absent behaves as the
all-`pd.NA` column the code would insert for it (src line 40). -/
def getVal (r : Row) (k : String) : Cell := (r.lookup k).getD Cell.na

/-- Does the row have column `k` at all? -/
def hasCol (r : Row) (k : String) : Bool := (r.lookup k).isSome

/-- Overwrite column `k` with value `v` (pandas column assignment: replace the
column if present, else append it). -/
def setVal (r : Row) (k : String) (v : Cell) : Row :=
  if hasCol r k then r.map (fun e => if e.1 = k then (k, v) else e) else r ++ [(k, v)]

/-- Embedding of `PARTNER_CONFIG` entries: partner code, raw-column mapping,
and the file-reading parameters (which only the I/O layer uses). -/
structure PartnerConf where
  partner_code : Str
  column_mapping : List (String × String)
  file_path : String
  delimiter : String

/-- Canonical columns ensured to exist before validation (src line 38). -/
def expectedCols : List String :=
  ["external_id", "first_name", "last_name", "dob", "email", "phone"]

/-- Column renaming per `df.rename(columns=partner_conf["column_mapping"])`:
a mapped raw name becomes its canonical name, others stay. -/
def renameCol (m : List (String × String)) (k : String) : String := (m.lookup k).getD k

def renameRow (m : List (String × String)) (r : Row) : Row :=
  r.map (fun e => (renameCol m e.1, e.2))

/-- Ensure all expected columns exist to avoid KeyErrors (src lines 38-40);
the inserted columns hold the `pd.NA` marker (`df[col] = pd.NA`). -/
def ensureCols (r : Row) : Row :=
  expectedCols.foldl (fun acc c => if hasCol acc c then acc else acc ++ [(c, Cell.na)]) r

/-- Per-row preprocessing of `standardize_dataframe`: rename, then ensure the
canonical columns exist. -/
def prepRow (conf : PartnerConf) (r : Row) : Row := ensureCols (renameRow conf.column_mapping r)

/-- Embedding of the drop mask (src line 44):
`df["external_id"].isna() | df["external_id"].astype(str).str.strip().eq("")`. -/
def missingId (r : Row) : Bool :=
  match getVal r "external_id" with
  | Cell.nan => true
  | Cell.na => true
  | Cell.str s => (pyStrip s).isEmpty

/-- The canonical record built from a kept row (src lines 55-66): `external_id`
copied verbatim, names title-cased, email lowercased, dob parsed, phone
formatted, `partner_code` stamped, projected onto the canonical columns. -/
def stdRecord (conf : PartnerConf) (r : Row) : Row :=
  [("external_id", getVal r "external_id"),
   ("first_name", normalize_name (getVal r "first_name")),
   ("last_name", normalize_name (getVal r "last_name")),
   ("dob", parse_date (getVal r "dob")),
   ("email", normalize_email (getVal r "email")),
   ("phone", format_phone (getVal r "phone")),
   ("partner_code", Cell.str conf.partner_code)]

/-- Stamp `partner_code` onto a dropped row (src line 70). -/
def stampPartner (conf : PartnerConf) (r : Row) : Row :=
  setVal r "partner_code" (Cell.str conf.partner_code)

/-- Embedding of `standardize_dataframe` (src lines 28-72). Returns
`(standardized, dropped)`. -/
def standardize_dataframe (df : List Row) (conf : PartnerConf) : List Row × List Row :=
  ((df.map (prepRow conf)).filter (fun r => !missingId r) |>.map (stdRecord conf),
   (df.map (prepRow conf)).filter (fun r => missingId r) |>.map (stampPartner conf))

/-- Result of the external CSV reader: a dataframe, or any read failure
(missing file, unreadable, fatal parse failure). -/
inductive ReadResult where
  | ok (df : List Row)
  | fail (msg : String)

/-- Embedding of `ingest_partner` (src lines 75-104): a read failure yields
two empty dataframes (src lines 86-89); otherwise standardize. -/
def ingest_partner (res : ReadResult) (conf : PartnerConf) : List Row × List Row :=
  match res with
  | ReadResult.fail _ => ([], [])
  | ReadResult.ok df => standardize_dataframe df conf

/-- Embedding of `main`'s aggregation loop (src lines 107-136): iterate the
partner configuration in order, ingest each partner with the external reader,
and concatenate all standardized rows and all dropped rows. (Appending an
empty list is a no-op, so skipping empty frames as the code does is the same
as always appending.) -/
def mainStep (reader : String → PartnerConf → ReadResult)
    (acc : List Row × List Row) (p : String × PartnerConf) : List Row × List Row :=
  (acc.1 ++ (ingest_partner (reader p.1 p.2) p.2).1,
   acc.2 ++ (ingest_partner (reader p.1 p.2) p.2).2)

def main (partners : List (String × PartnerConf)) (reader : String → PartnerConf → ReadResult) :
    List Row × List Row :=
  partners.foldl (mainStep reader) ([], [])

/-! ## Lemmas about rows -/

theorem lookup_replace_same (r : Row) (k : String) (v : Cell) :
    (r.map (fun e => if e.1 = k then (k, v) else e)).lookup k = (r.lookup k).map (fun _ => v) := by
  induction r with
  | nil => rfl
  | cons e r ih =>
    by_cases he : e.1 = k
    · obtain ⟨e1, e2⟩ := e
      simp only at he
      subst he
      rw [List.map_cons, if_pos rfl, List.lookup_cons, List.lookup_cons, beq_self_eq_true]
      rfl
    · obtain ⟨e1, e2⟩ := e
      simp only at he
      have hbeq : (k == e1) = false := by
        rw [beq_eq_false_iff_ne]
        exact fun hk => he hk.symm
      rw [List.map_cons, if_neg (by simpa using he), List.lookup_cons, List.lookup_cons, hbeq, ih]

theorem lookup_replace_other (r : Row) (k k' : String) (v : Cell) (h : k' ≠ k) :
    (r.map (fun e => if e.1 = k then (k, v) else e)).lookup k' = r.lookup k' := by
  induction r with
  | nil => rfl
  | cons e r ih =>
    obtain ⟨e1, e2⟩ := e
    by_cases he : e1 = k
    · subst he
      have hbeq : (k' == e1) = false := beq_eq_false_iff_ne.mpr h
      rw [List.map_cons, if_pos rfl, List.lookup_cons, List.lookup_cons, hbeq, ih]
    · rw [List.map_cons, if_neg (by simpa using he), List.lookup_cons, List.lookup_cons, ih]

theorem getVal_setVal_same (r : Row) (k : String) (v : Cell) :
    getVal (setVal r k v) k = v := by
  unfold setVal
  by_cases hc : hasCol r k = true
  · rw [if_pos hc]
    unfold getVal
    rw [lookup_replace_same]
    unfold hasCol at hc
    cases hl : r.lookup k with
    | none => rw [hl] at hc; exact absurd hc (by simp)
    | some w => rfl
  · rw [if_neg hc]
    unfold getVal
    rw [List.lookup_append]
    unfold hasCol at hc
    cases hl : r.lookup k with
    | none => simp [List.lookup_cons]
    | some w => rw [hl] at hc; exact (hc rfl).elim

theorem getVal_setVal_other (r : Row) (k k' : String) (v : Cell) (h : k' ≠ k) :
    getVal (setVal r k v) k' = getVal r k' := by
  unfold setVal
  by_cases hc : hasCol r k = true
  · rw [if_pos hc]
    unfold getVal
    rw [lookup_replace_other r k k' v h]
  · rw [if_neg hc]
    unfold getVal
    rw [List.lookup_append]
    have hone : ([(k, v)] : Row).lookup k' = none := by
      simp only [List.lookup_cons, beq_eq_false_iff_ne.mpr h, List.lookup_nil]
    rw [hone, Option.or_none]

theorem getVal_append_na (r : Row) (c k : String) :
    getVal (r ++ [(c, Cell.na)]) k = getVal r k := by
  unfold getVal
  rw [List.lookup_append]
  cases hl : r.lookup k with
  | none =>
    simp only [Option.none_or]
    by_cases hk : k = c
    · subst hk
      simp [List.lookup_cons]
    · simp [List.lookup_cons, beq_eq_false_iff_ne.mpr hk]
  | some w => rfl

theorem getVal_ensureCols (r : Row) (k : String) : getVal (ensureCols r) k = getVal r k := by
  unfold ensureCols
  generalize expectedCols = cols
  induction cols generalizing r with
  | nil => rfl
  | cons c cols ih =>
    rw [List.foldl_cons]
    by_cases hc : hasCol r c = true
    · rw [if_pos hc, ih r]
    · rw [if_neg hc, ih (r ++ [(c, Cell.na)]), getVal_append_na]

theorem hasCol_of_getVal_append (r : Row) (c : String) : hasCol (r ++ [(c, Cell.na)]) c = true := by
  unfold hasCol
  rw [List.lookup_append]
  cases hl : r.lookup c with
  | none => simp [List.lookup_cons]
  | some w => rfl

theorem hasCol_append_mono (r : Row) (e : String × Cell) (k : String) (h : hasCol r k = true) :
    hasCol (r ++ [e]) k = true := by
  unfold hasCol at h ⊢
  rw [List.lookup_append]
  cases hl : r.lookup k with
  | none => rw [hl] at h; exact absurd h (by simp)
  | some w => rfl

theorem hasCol_ensureCols_aux (cols : List String) (r : Row) (k : String)
    (h : k ∈ cols ∨ hasCol r k = true) :
    hasCol (cols.foldl (fun acc c => if hasCol acc c then acc else acc ++ [(c, Cell.na)]) r) k
      = true := by
  induction cols generalizing r with
  | nil =>
    rcases h with h | h
    · exact absurd h (List.not_mem_nil k)
    · exact h
  | cons c cols ih =>
    rw [List.foldl_cons]
    rcases h with h | h
    · rcases List.mem_cons.mp h with rfl | hmem
      · by_cases hc : hasCol r k = true
        · rw [if_pos hc]
          exact ih r (Or.inr hc)
        · rw [if_neg hc]
          exact ih _ (Or.inr (hasCol_of_getVal_append r k))
      · by_cases hc : hasCol r c = true
        · rw [if_pos hc]
          exact ih r (Or.inl hmem)
        · rw [if_neg hc]
          exact ih _ (Or.inl hmem)
    · by_cases hc : hasCol r c = true
      · rw [if_pos hc]
        exact ih r (Or.inr h)
      · rw [if_neg hc]
        exact ih _ (Or.inr (hasCol_append_mono r (c, Cell.na) k h))

theorem hasCol_ensureCols (r : Row) (k : String) (h : k ∈ expectedCols) :
    hasCol (ensureCols r) k = true :=
  hasCol_ensureCols_aux expectedCols r k (Or.inl h)

theorem ensureCols_aux_eq_self (cols : List String) (r : Row)
    (h : ∀ c ∈ cols, hasCol r c = true) :
    cols.foldl (fun acc c => if hasCol acc c then acc else acc ++ [(c, Cell.na)]) r = r := by
  induction cols generalizing r with
  | nil => rfl
  | cons c cols ih =>
    rw [List.foldl_cons, if_pos (h c (List.mem_cons_self c cols))]
    exact ih r (fun x hx => h x (List.mem_cons_of_mem c hx))

theorem ensureCols_eq_self (r : Row) (h : ∀ c ∈ expectedCols, hasCol r c = true) :
    ensureCols r = r :=
  ensureCols_aux_eq_self expectedCols r h

theorem filter_length_split (p : α → Bool) (l : List α) :
    (l.filter p).length + (l.filter (fun x => !p x)).length = l.length := by
  induction l with
  | nil => rfl
  | cons a l ih =>
    by_cases ha : p a = true
    · rw [List.filter_cons_of_pos ha, List.filter_cons_of_neg (by simp [ha])]
      simp only [List.length_cons]
      omega
    · rw [List.filter_cons_of_neg (by simp [ha]), List.filter_cons_of_pos (by simp at ha; simp [ha])]
      simp only [List.length_cons]
      omega

theorem missingId_congr (r1 r2 : Row) (h : getVal r1 "external_id" = getVal r2 "external_id") :
    missingId r1 = missingId r2 := by
  unfold missingId
  rw [h]

theorem missingId_false_iff (r : Row) :
    missingId r = false ↔
      ∃ s, getVal r "external_id" = Cell.str s ∧ (pyStrip s).isEmpty = false := by
  unfold missingId
  cases hv : getVal r "external_id" with
  | nan =>
    constructor
    · intro h
      exact absurd h (by simp)
    · rintro ⟨s, hs, -⟩
      exact Cell.noConfusion hs
  | na =>
    constructor
    · intro h
      exact absurd h (by simp)
    · rintro ⟨s, hs, -⟩
      exact Cell.noConfusion hs
  | str s =>
    constructor
    · intro h
      exact ⟨s, rfl, h⟩
    · rintro ⟨t, ht, hne⟩
      rw [Cell.str.injEq] at ht
      rw [ht]
      exact hne

/-! ## Lemmas about `stdRecord` and `prepRow` -/

theorem getVal_stdRecord_external_id (conf : PartnerConf) (r : Row) :
    getVal (stdRecord conf r) "external_id" = getVal r "external_id" := by
  simp [stdRecord, getVal, List.lookup_cons]

theorem getVal_stdRecord_first_name (conf : PartnerConf) (r : Row) :
    getVal (stdRecord conf r) "first_name" = normalize_name (getVal r "first_name") := by
  simp [stdRecord, getVal, List.lookup_cons]

theorem getVal_stdRecord_last_name (conf : PartnerConf) (r : Row) :
    getVal (stdRecord conf r) "last_name" = normalize_name (getVal r "last_name") := by
  simp [stdRecord, getVal, List.lookup_cons]

theorem getVal_stdRecord_dob (conf : PartnerConf) (r : Row) :
    getVal (stdRecord conf r) "dob" = parse_date (getVal r "dob") := by
  simp [stdRecord, getVal, List.lookup_cons]

theorem getVal_stdRecord_email (conf : PartnerConf) (r : Row) :
    getVal (stdRecord conf r) "email" = normalize_email (getVal r "email") := by
  simp [stdRecord, getVal, List.lookup_cons]

theorem getVal_stdRecord_phone (conf : PartnerConf) (r : Row) :
    getVal (stdRecord conf r) "phone" = format_phone (getVal r "phone") := by
  simp [stdRecord, getVal, List.lookup_cons]

theorem getVal_stdRecord_partner (conf : PartnerConf) (r : Row) :
    getVal (stdRecord conf r) "partner_code" = Cell.str conf.partner_code := by
  simp [stdRecord, getVal, List.lookup_cons]

theorem hasCol_stdRecord (conf : PartnerConf) (r : Row) (c : String)
    (h : c ∈ expectedCols) : hasCol (stdRecord conf r) c = true := by
  simp only [expectedCols, List.mem_cons, List.not_mem_nil, or_false] at h
  rcases h with rfl | rfl | rfl | rfl | rfl | rfl <;>
    simp [stdRecord, hasCol, List.lookup_cons]

theorem missingId_stdRecord (conf : PartnerConf) (r : Row) :
    missingId (stdRecord conf r) = missingId r :=
  missingId_congr _ _ (getVal_stdRecord_external_id conf r)

/-- Building the canonical record twice changes nothing, provided none of the
name/email normalizations produced the `pd.NA` marker (which a second pass
would turn into the literal `"<Na>"`/`"<na>"`). -/
theorem stdRecord_idem (conf : PartnerConf) (r : Row)
    (hfn : normalize_name (getVal r "first_name") ≠ Cell.na)
    (hln : normalize_name (getVal r "last_name") ≠ Cell.na)
    (hem : normalize_email (getVal r "email") ≠ Cell.na) :
    stdRecord conf (stdRecord conf r) = stdRecord conf r := by
  conv_lhs => rw [stdRecord]
  rw [getVal_stdRecord_external_id, getVal_stdRecord_first_name, getVal_stdRecord_last_name,
    getVal_stdRecord_dob, getVal_stdRecord_email, getVal_stdRecord_phone,
    normalize_name_idem _ hfn, normalize_name_idem _ hln, normalize_email_idem _ hem,
    parse_date_idem, format_phone_idem]
  rfl

theorem renameRow_stdRecord (m : List (String × String)) (conf : PartnerConf) (r : Row)
    (h : ∀ k ∈ "partner_code" :: expectedCols, m.lookup k = none) :
    renameRow m (stdRecord conf r) = stdRecord conf r := by
  have h1 : m.lookup "external_id" = none := h _ (by simp [expectedCols])
  have h2 : m.lookup "first_name" = none := h _ (by simp [expectedCols])
  have h3 : m.lookup "last_name" = none := h _ (by simp [expectedCols])
  have h4 : m.lookup "dob" = none := h _ (by simp [expectedCols])
  have h5 : m.lookup "email" = none := h _ (by simp [expectedCols])
  have h6 : m.lookup "phone" = none := h _ (by simp [expectedCols])
  have h7 : m.lookup "partner_code" = none := h _ (by simp)
  simp [renameRow, stdRecord, renameCol, h1, h2, h3, h4, h5, h6, h7]

theorem prepRow_stdRecord (conf : PartnerConf) (r : Row)
    (h : ∀ k ∈ "partner_code" :: expectedCols, conf.column_mapping.lookup k = none) :
    prepRow conf (stdRecord conf r) = stdRecord conf r := by
  unfold prepRow
  rw [renameRow_stdRecord conf.column_mapping conf r h]
  exact ensureCols_eq_self _ (fun c hc => hasCol_stdRecord conf r c hc)

/-! ## Concrete inputs used by the witnesses -/

/-- Sample partner configuration (empty mapping, code `P1`). -/
def confW : PartnerConf := ⟨['P', '1'], [], "p1.csv", ","⟩

/-- A row with a valid id, a bad dob and a short phone. -/
def rowW1 : Row :=
  [("external_id", Cell.str ['a']), ("first_name", Cell.str ['j', 'o', 'H', 'N']),
   ("dob", Cell.str ['b', 'a', 'd']), ("phone", Cell.str ['1', '2', '3'])]

/-- A row whose id is whitespace only. -/
def rowW2 : Row := [("external_id", Cell.str [' ']), ("first_name", Cell.str ['a'])]

/-- Sample dataframe. -/
def dfW : List Row := [rowW1, rowW2]

/-- A row whose id carries surrounding whitespace. -/
def rowWS : Row := [("external_id", Cell.str [' ', 'a', ' '])]

/-- A row with genuine string values that normalize to the `nan` placeholder. -/
def rowNan : Row :=
  [("external_id", Cell.str ['x']), ("first_name", Cell.str ['n', 'A', 'N']),
   ("email", Cell.str ['N', 'A', 'N'])]

/-- A dataframe whose single (accepted) row has a missing `NaN` first name in
a present column — the input that refutes idempotence (C8). -/
def dfNan : List Row := [[("external_id", Cell.str ['a']), ("first_name", Cell.nan)]]

/-! ## Claims -/

/-- C1: every input row of `standardize_dataframe` lands in exactly one of the
accepted and dropped sets (their sizes add up to the input size, and each row
is sent to the side its `external_id` dictates); every accepted record has a
non-empty `external_id` after trimming and every dropped record has a missing
or blank one. -/
theorem standardize_partition (df : List Row) (conf : PartnerConf) :
    (standardize_dataframe df conf).1.length + (standardize_dataframe df conf).2.length
        = df.length
    ∧ (∀ r ∈ df,
        (missingId (prepRow conf r) = false
          ∧ stdRecord conf (prepRow conf r) ∈ (standardize_dataframe df conf).1)
        ∨ (missingId (prepRow conf r) = true
          ∧ stampPartner conf (prepRow conf r) ∈ (standardize_dataframe df conf).2))
    ∧ (∀ r ∈ (standardize_dataframe df conf).1,
        ∃ s, getVal r "external_id" = Cell.str s ∧ (pyStrip s).isEmpty = false)
    ∧ (∀ r ∈ (standardize_dataframe df conf).2,
        getVal r "external_id" = Cell.nan ∨ getVal r "external_id" = Cell.na
        ∨ ∃ s, getVal r "external_id" = Cell.str s ∧ (pyStrip s).isEmpty = true) := by
  refine ⟨?_, ?_, ?_, ?_⟩
  · simp only [standardize_dataframe, List.length_map]
    have h := filter_length_split (fun r => missingId r) (df.map (prepRow conf))
    rw [List.length_map] at h
    omega
  · intro r hr
    cases hm : missingId (prepRow conf r) with
    | false =>
      refine Or.inl ⟨rfl, ?_⟩
      simp only [standardize_dataframe, List.mem_map, List.mem_filter]
      exact ⟨prepRow conf r, ⟨⟨r, hr, rfl⟩, by rw [hm]; rfl⟩, rfl⟩
    | true =>
      refine Or.inr ⟨rfl, ?_⟩
      simp only [standardize_dataframe, List.mem_map, List.mem_filter]
      exact ⟨prepRow conf r, ⟨⟨r, hr, rfl⟩, hm⟩, rfl⟩
  · intro r hr
    simp only [standardize_dataframe, List.mem_map, List.mem_filter] at hr
    obtain ⟨q, ⟨-, hq⟩, rfl⟩ := hr
    have hm : missingId q = false := by simpa using hq
    rw [getVal_stdRecord_external_id]
    exact (missingId_false_iff q).mp hm
  · intro r hr
    simp only [standardize_dataframe, List.mem_map, List.mem_filter] at hr
    obtain ⟨q, ⟨-, hq⟩, rfl⟩ := hr
    unfold stampPartner
    rw [getVal_setVal_other _ _ _ _ (by decide)]
    revert hq
    unfold missingId
    cases hv : getVal q "external_id" with
    | nan => intro _; exact Or.inl rfl
    | na => intro _; exact Or.inr (Or.inl rfl)
    | str s => intro hq; exact Or.inr (Or.inr ⟨s, rfl, hq⟩)

/-- Witness for C1 at a concrete dataframe. -/
theorem standardize_partition_witness :
    (standardize_dataframe dfW confW).1.length + (standardize_dataframe dfW confW).2.length
      = dfW.length :=
  (standardize_partition dfW confW).1

/-- C2: the row classifier accepts a row iff `external_id` is present and
non-empty after trimming, and the decision depends on no field other than
`external_id` (two rows agreeing on `external_id` are classified alike). -/
theorem classifier_external_id_only (r1 r2 : Row) :
    (missingId r1 = false
      ↔ ∃ s, getVal r1 "external_id" = Cell.str s ∧ (pyStrip s).isEmpty = false)
    ∧ (getVal r1 "external_id" = getVal r2 "external_id" → missingId r1 = missingId r2) :=
  ⟨missingId_false_iff r1, missingId_congr r1 r2⟩

/-- Witness for C2: a row with unparseable dob and malformed phone but a good
id is accepted; a whitespace-only id is not. -/
theorem classifier_external_id_only_witness :
    missingId rowW1 = false ∧ missingId rowW2 = true := by
  constructor
  · exact (classifier_external_id_only rowW1 rowW1).1.mpr ⟨['a'], by decide, by decide⟩
  · decide

/-- C3: a dropped row keeps every post-rename field value unmodified (no
normalizer touches it) and gets `partner_code` stamped from the partner
configuration. -/
theorem dropped_rows_preserved (df : List Row) (conf : PartnerConf) :
    ∀ r ∈ df, missingId (prepRow conf r) = true →
      stampPartner conf (prepRow conf r) ∈ (standardize_dataframe df conf).2
      ∧ getVal (stampPartner conf (prepRow conf r)) "partner_code" = Cell.str conf.partner_code
      ∧ (∀ k, k ≠ "partner_code" →
          getVal (stampPartner conf (prepRow conf r)) k
            = getVal (renameRow conf.column_mapping r) k) := by
  intro r hr hm
  refine ⟨?_, getVal_setVal_same _ _ _, ?_⟩
  · simp only [standardize_dataframe, List.mem_map, List.mem_filter]
    exact ⟨prepRow conf r, ⟨⟨r, hr, rfl⟩, hm⟩, rfl⟩
  · intro k hk
    rw [stampPartner, getVal_setVal_other _ _ _ _ hk, prepRow, getVal_ensureCols]

/-- Witness for C3 at a concrete dropped row. -/
theorem dropped_rows_preserved_witness :
    getVal (stampPartner confW (prepRow confW rowW2)) "partner_code" = Cell.str ['P', '1']
    ∧ getVal (stampPartner confW (prepRow confW rowW2)) "first_name"
        = getVal (renameRow confW.column_mapping rowW2) "first_name" := by
  have h := dropped_rows_preserved dfW confW rowW2 (by decide) (by decide)
  exact ⟨h.2.1, h.2.2 "first_name" (by decide)⟩

/-- C4: a partner whose read fails contributes zero accepted and zero dropped
rows, and the pipeline over the remaining partners is unchanged — the failure
does not propagate. -/
theorem read_failure_contributes_nothing (pre post : List (String × PartnerConf))
    (p : String × PartnerConf) (reader : String → PartnerConf → ReadResult) (msg : String)
    (h : reader p.1 p.2 = ReadResult.fail msg) :
    ingest_partner (reader p.1 p.2) p.2 = ([], [])
    ∧ main (pre ++ p :: post) reader = main (pre ++ post) reader := by
  have hing : ingest_partner (reader p.1 p.2) p.2 = ([], []) := by rw [h]; rfl
  refine ⟨hing, ?_⟩
  have hstep : ∀ acc : List Row × List Row, mainStep reader acc p = acc := by
    intro acc
    rw [mainStep, hing]
    simp
  unfold main
  rw [List.foldl_append, List.foldl_append, List.foldl_cons, hstep]

/-- Concrete reader that fails on partner `a` and reads an empty frame
otherwise. -/
def readerW : String → PartnerConf → ReadResult := fun name _ =>
  if name = "a" then ReadResult.fail "boom" else ReadResult.ok []

/-- Witness for C4: dropping the failing partner from the configuration leaves
the outputs unchanged. -/
theorem read_failure_contributes_nothing_witness :
    main [("a", confW), ("b", confW)] readerW = main [("b", confW)] readerW :=
  (read_failure_contributes_nothing [] [("b", confW)] ("a", confW) readerW "boom"
    (by simp [readerW])).2

/-- C5: `format_phone` keeps exactly the digits of its input; with exactly 10
digits it returns them as `AAA-BBB-CCCC` (the output carries the same digits
in the same order — nothing is truncated or re-interpreted), with any other
digit count or a missing input it returns absent. -/
theorem format_phone_correct (s : Str) :
    format_phone Cell.nan = Cell.nan
    ∧ format_phone Cell.na = Cell.nan
    ∧ ((s.filter Char.isDigit).length = 10 →
        format_phone (Cell.str s) = Cell.str ((s.filter Char.isDigit).take 3 ++
          ('-' :: (((s.filter Char.isDigit).drop 3).take 3
            ++ ('-' :: (s.filter Char.isDigit).drop 6))))
        ∧ ∀ r, format_phone (Cell.str s) = Cell.str r →
            r.filter Char.isDigit = s.filter Char.isDigit)
    ∧ ((s.filter Char.isDigit).length ≠ 10 → format_phone (Cell.str s) = Cell.nan) := by
  refine ⟨rfl, rfl, ?_, format_phone_of_not_ten s⟩
  intro h
  refine ⟨format_phone_of_digits s h, ?_⟩
  intro r hr
  rw [format_phone_of_digits s h] at hr
  rw [Cell.str.injEq] at hr
  rw [← hr]
  exact filter_isDigit_format _ (fun a ha => List.of_mem_filter ha)

/-- Witness for C5 at the spec's three examples. -/
theorem format_phone_correct_witness :
    format_phone (Cell.str "(555) 123-4567".data) = Cell.str "555-123-4567".data
    ∧ format_phone (Cell.str "12345".data) = Cell.nan
    ∧ format_phone (Cell.str "+1-555-123-4567".data) = Cell.nan := by
  refine ⟨?_, ?_, ?_⟩
  · rw [((format_phone_correct "(555) 123-4567".data).2.2.1 (by decide)).1]
    decide
  · exact (format_phone_correct "12345".data).2.2.2 (by decide)
  · exact (format_phone_correct "+1-555-123-4567".data).2.2.2 (by decide)

/-- C6 counterexample: the claim fails on the code in three places. A blank
(whitespace-only) name is passed through unchanged, not made absent; Python
title-casing capitalizes after any non-letter, so `"jean-paul"` becomes
`"Jean-Paul"` while the spec's whitespace-token reading gives `"Jean-paul"`;
and a `pd.NA` null (what every row holds when the name column is absent, src
line 40) is rendered `"<NA>"` by `astype(str)` and title-cased to the kept
placeholder `"<Na>"` — neither absent nor a title-cased name. -/
theorem normalize_name_spec_counterexample :
    normalize_name (Cell.str [' ']) = Cell.str [' ']
    ∧ normalize_name (Cell.str "jean-paul".data) = Cell.str "Jean-Paul".data
    ∧ specTitle "jean-paul".data = "Jean-paul".data
    ∧ normalize_name Cell.na = Cell.str ['<', 'N', 'a', '>'] := by
  refine ⟨by decide, by decide, by decide, by decide⟩

/-- C6 amended: name normalization sends a float-`NaN` null to absent (via
the `"nan"` → `"Nan"` → `pd.NA` collapse) but keeps a `pd.NA` null as the
literal placeholder `"<Na>"`, not absent; the output is never the lowercase
literal `"nan"`; a present string is Python-title-cased (first letter of
each maximal letter run capitalized, other letters lowercased, so blank
strings pass through unchanged rather than becoming absent), collapsing to
absent exactly when the result is the placeholder `"Nan"`; on strings of
letters and spaces this title-casing agrees with the spec's
whitespace-token description. -/
theorem normalize_name_correct (c : Cell) (s : Str) :
    normalize_name Cell.nan = Cell.na
    ∧ normalize_name Cell.na = Cell.str ['<', 'N', 'a', '>']
    ∧ normalize_name c ≠ Cell.str ['n', 'a', 'n']
    ∧ normalize_name (Cell.str s)
        = (if pyTitle s = ['N', 'a', 'n'] then Cell.na else Cell.str (pyTitle s))
    ∧ ((∀ ch ∈ s, ch.isAlpha = true ∨ ch = ' ') → pyTitle s = specTitle s) :=
  ⟨by decide, by decide, normalize_name_ne_nan c, rfl, pyTitle_agrees_specTitle s⟩

/-- Witness for C6 (amended) at concrete names. -/
theorem normalize_name_correct_witness :
    pyTitle "joHN smiTH".data = specTitle "joHN smiTH".data
    ∧ normalize_name (Cell.str "joHN".data) = Cell.str "John".data := by
  constructor
  · exact (normalize_name_correct Cell.nan "joHN smiTH".data).2.2.2.2 (by decide)
  · rw [(normalize_name_correct Cell.nan "joHN".data).2.2.2.1]
    decide

/-- C7: date parsing maps a missing value of either flavor to absent, an
unparseable value to absent (never an error — the embedding is total), and a
parseable calendar date to its `YYYY-MM-DD` rendering; re-parsing that
rendering succeeds. -/
theorem parse_date_correct (s : Str) (dt : PDate) :
    parse_date Cell.nan = Cell.nan
    ∧ parse_date Cell.na = Cell.nan
    ∧ (parseDateStr s = none → parse_date (Cell.str s) = Cell.nan)
    ∧ (parseDateStr s = some dt →
        parse_date (Cell.str s) = Cell.str (formatISO dt)
        ∧ validDate dt = true
        ∧ parse_date (Cell.str (formatISO dt)) = Cell.str (formatISO dt)) := by
  refine ⟨rfl, rfl, ?_, ?_⟩
  · intro h
    simp only [parse_date, h]
  · intro h
    have hv := parseDateStr_some h
    refine ⟨by simp only [parse_date, h], hv, ?_⟩
    simp only [parse_date, formatISO_roundtrip dt hv]

/-- Witness for C7 at the spec's examples. -/
theorem parse_date_correct_witness :
    parse_date (Cell.str "2020-01-15".data) = Cell.str "2020-01-15".data
    ∧ parse_date (Cell.str "not-a-date".data) = Cell.nan := by
  constructor
  · rw [((parse_date_correct "2020-01-15".data ⟨2020, 1, 15⟩).2.2.2 (by decide)).1]
    decide
  · exact (parse_date_correct "not-a-date".data ⟨1, 1, 1⟩).2.2.1 (by decide)

/-- C8 counterexample: standardization is not idempotent on its own output.
A missing first name is collapsed to the `pd.NA` marker by
`replace("Nan", pd.NA)` in run one; run two's `astype(str)` renders that
marker `"<NA>"` and title-cases it to the kept placeholder `"<Na>"`, so the
record's value changes. -/
theorem standardize_idempotent_counterexample :
    getVal ((standardize_dataframe dfNan confW).1.headD []) "first_name" = Cell.na
    ∧ getVal ((standardize_dataframe (standardize_dataframe dfNan confW).1 confW).1.headD [])
        "first_name" = Cell.str ['<', 'N', 'a', '>']
    ∧ standardize_dataframe (standardize_dataframe dfNan confW).1 confW
        ≠ ((standardize_dataframe dfNan confW).1, []) := by
  refine ⟨by decide, by decide, by decide⟩

/-- C8 amended: re-running standardization on the accepted output returns it
unchanged and drops nothing, provided the partner's column mapping renames no
canonical column and no accepted record carries an absent (`pd.NA`)
first_name, last_name or email — on such records the second pass turns the
`pd.NA` left by the placeholder collapse into the literal `"<Na>"`/`"<na>"`.
The other fields (`external_id`, `dob`, `phone`) re-standardize unchanged
unconditionally, and every accepted record is accepted again. -/
theorem standardize_idempotent (df : List Row) (conf : PartnerConf)
    (h : ∀ k ∈ "partner_code" :: expectedCols, conf.column_mapping.lookup k = none)
    (hna : ∀ q ∈ (standardize_dataframe df conf).1,
        getVal q "first_name" ≠ Cell.na ∧ getVal q "last_name" ≠ Cell.na
          ∧ getVal q "email" ≠ Cell.na) :
    standardize_dataframe (standardize_dataframe df conf).1 conf
      = ((standardize_dataframe df conf).1, []) := by
  simp only [standardize_dataframe] at hna
  simp only [standardize_dataframe]
  set L := ((df.map (prepRow conf)).filter (fun r => !missingId r)).map (stdRecord conf)
    with hLdef
  have hL : ∀ q ∈ L, prepRow conf q = q ∧ missingId q = false ∧ stdRecord conf q = q := by
    intro q hq
    obtain ⟨hfn, hln, hem⟩ := hna q hq
    rw [hLdef] at hq
    simp only [List.mem_map, List.mem_filter] at hq
    obtain ⟨p, ⟨-, hp⟩, rfl⟩ := hq
    rw [getVal_stdRecord_first_name] at hfn
    rw [getVal_stdRecord_last_name] at hln
    rw [getVal_stdRecord_email] at hem
    refine ⟨prepRow_stdRecord conf p h, ?_, stdRecord_idem conf p hfn hln hem⟩
    rw [missingId_stdRecord]
    simpa using hp
  have hmap : L.map (prepRow conf) = L := by
    have h1 : L.map (prepRow conf) = L.map id := List.map_congr_left (fun q hq => (hL q hq).1)
    rw [h1, List.map_id]
  have hfilter : L.filter (fun r => !missingId r) = L :=
    List.filter_eq_self.mpr (fun q hq => by rw [(hL q hq).2.1]; rfl)
  have hfilter2 : L.filter (fun r => missingId r) = [] :=
    List.filter_eq_nil_iff.mpr (fun q hq => by simp [(hL q hq).2.1])
  have hmap2 : L.map (stdRecord conf) = L := by
    have h1 : L.map (stdRecord conf) = L.map id := List.map_congr_left (fun q hq => (hL q hq).2.2)
    rw [h1, List.map_id]
  rw [hmap, hfilter, hfilter2, hmap2, List.map_nil]

/-- Witness for C8 (amended) at a concrete dataframe whose accepted record
has genuine name and email renderings (none of them the `pd.NA` marker). -/
theorem standardize_idempotent_witness :
    standardize_dataframe (standardize_dataframe dfW confW).1 confW
      = ((standardize_dataframe dfW confW).1, []) :=
  standardize_idempotent dfW confW (by decide) (by decide)

/-- C9: an accepted row's `external_id` reaches the output record verbatim —
the canonical record stores exactly the post-rename cell, with no trimming or
normalization, so ids with surrounding whitespace survive intact. -/
theorem external_id_verbatim (df : List Row) (conf : PartnerConf) :
    ∀ r ∈ df, missingId (prepRow conf r) = false →
      stdRecord conf (prepRow conf r) ∈ (standardize_dataframe df conf).1
      ∧ getVal (stdRecord conf (prepRow conf r)) "external_id"
          = getVal (renameRow conf.column_mapping r) "external_id" := by
  intro r hr hm
  constructor
  · simp only [standardize_dataframe, List.mem_map, List.mem_filter]
    exact ⟨prepRow conf r, ⟨⟨r, hr, rfl⟩, by rw [hm]; rfl⟩, rfl⟩
  · rw [getVal_stdRecord_external_id, prepRow, getVal_ensureCols]

/-- Witness for C9: an id padded with whitespace is accepted and emitted with
its whitespace intact. -/
theorem external_id_verbatim_witness :
    getVal (stdRecord confW (prepRow confW rowWS)) "external_id"
      = Cell.str [' ', 'a', ' '] := by
  rw [(external_id_verbatim [rowWS] confW rowWS (by decide) (by decide)).2]
  decide

/-- C10: on an accepted row, a genuine first/last name whose title-cased form
is exactly `"Nan"`, or a genuine email whose lowercased form is exactly
`"nan"`, is collapsed to absent (the `pd.NA` marker that `Series.replace`
inserts) in the output record. -/
theorem nan_placeholder_collapse (conf : PartnerConf) (r : Row) :
    (∀ s, getVal r "first_name" = Cell.str s → pyTitle s = ['N', 'a', 'n'] →
        getVal (stdRecord conf r) "first_name" = Cell.na)
    ∧ (∀ s, getVal r "last_name" = Cell.str s → pyTitle s = ['N', 'a', 'n'] →
        getVal (stdRecord conf r) "last_name" = Cell.na)
    ∧ (∀ s, getVal r "email" = Cell.str s → s.map Char.toLower = ['n', 'a', 'n'] →
        getVal (stdRecord conf r) "email" = Cell.na) := by
  refine ⟨?_, ?_, ?_⟩
  · intro s hs ht
    rw [getVal_stdRecord_first_name, hs]
    simp [normalize_name, astype_str, ht]
  · intro s hs ht
    rw [getVal_stdRecord_last_name, hs]
    simp [normalize_name, astype_str, ht]
  · intro s hs ht
    rw [getVal_stdRecord_email, hs]
    simp [normalize_email, astype_str, ht]

/-- Witness for C10 at genuine non-null placeholder-like values. -/
theorem nan_placeholder_collapse_witness :
    getVal (stdRecord confW rowNan) "first_name" = Cell.na
    ∧ getVal (stdRecord confW rowNan) "email" = Cell.na :=
  ⟨(nan_placeholder_collapse confW rowNan).1 ['n', 'A', 'N'] (by decide) (by decide),
   (nan_placeholder_collapse confW rowNan).2.2 ['N', 'A', 'N'] (by decide) (by decide)⟩

end EligibilityPipeline
